import Mathlib

/-!
# Verification development for the P2P compute-task distribution core

Shallow embedding of the task-verification, DHT routing, task-dispatch and
network-resilience code (`TaskVerification`, `DHTTaskDistribution`,
`NetworkResilience`) of the solanaworks repository, with theorems settling
the frozen claims about consensus, reputation, routing-table invariants,
candidate filtering and malicious-peer detection.

JavaScript numbers are embedded as `ℚ` (all values the code manipulates are
exact decimals or results of exact divisions), counters and timestamps as
`ℕ`, byte buffers as `List ℕ`, and the string-keyed `Map`s as functions
`String → Option _`.
-/

set_option linter.unusedVariables false

/-! ## Shared data model (P2PNetworkManager.ts) -/

/-- `thermalState` field values of `DeviceCapabilities`. -/
inductive ThermalState
  | nominal
  | fair
  | serious
  | critical
deriving DecidableEq, Repr

/-- `computeTier` field values of `DeviceCapabilities`. -/
inductive ComputeTier
  | low
  | medium
  | high
  | premium
deriving DecidableEq, Repr

/-- `DeviceCapabilities` of P2PNetworkManager.ts. -/
structure DeviceCapabilities where
  computeTier : ComputeTier
  cpuCores : ℚ
  ramGB : ℚ
  gpuAcceleration : Bool
  networkBandwidth : ℚ
  batteryLevel : Option ℚ
  thermalState : ThermalState
deriving DecidableEq, Repr

/-- `status` field values of `PeerInfo`. -/
inductive PeerStatus
  | connecting
  | connected
  | disconnected
  | failed
deriving DecidableEq, Repr

/-- `PeerInfo` of P2PNetworkManager.ts (the `publicKey` object is embedded
as its base-58 string). -/
structure PeerInfo where
  id : String
  publicKey : String
  capabilities : DeviceCapabilities
  reputation : ℚ
  latency : ℚ
  lastSeen : ℕ
  status : PeerStatus
deriving DecidableEq, Repr

/-! ## Verification data model (TaskVerification.ts) -/

/-- The `consensus` field values of a `VerificationResult`. -/
inductive Consensus
  | approved
  | rejected
  | pending
deriving DecidableEq, Repr

/-- The `details` sub-checks of a `VerificationResponse`. -/
structure VerificationDetails where
  resultHash : String
  executionTimeValid : Bool
  resourceUsageValid : Bool
  outputValid : Bool
deriving DecidableEq, Repr

/-- `VerificationResponse` of TaskVerification.ts. -/
structure VerificationResponse where
  verificationId : String
  verifierId : String
  taskId : String
  isValid : Bool
  confidence : ℚ
  details : VerificationDetails
  timestamp : ℕ
  signature : Option String
deriving DecidableEq, Repr

/-- `VerificationResult` of TaskVerification.ts. -/
structure VerificationResult where
  verificationId : String
  taskId : String
  consensus : Consensus
  verifierCount : ℕ
  approvalCount : ℕ
  rejectionCount : ℕ
  averageConfidence : ℚ
  consensusReached : Bool
  finalizedAt : ℕ
  verifications : List VerificationResponse
deriving DecidableEq, Repr

/-- `ReputationScore` of TaskVerification.ts. -/
structure ReputationScore where
  peerId : String
  score : ℚ
  totalVerifications : ℕ
  correctVerifications : ℕ
  falsePositives : ℕ
  falseNegatives : ℕ
  lastUpdated : ℕ
deriving DecidableEq, Repr

/-- `this.consensusThreshold = 0.67` (67% consensus required). -/
def consensusThreshold : ℚ := 0.67

/-- `this.minVerifiers = 3` (minimum number of verifiers). -/
def minVerifiers : ℕ := 3

/-- `this.maxVerifiers = 7` (maximum number of verifiers). -/
def maxVerifiers : ℕ := 7

/-- The `reputationScores` map of `TaskVerification`, keyed by peer id. -/
def RepMap : Type := String → Option ReputationScore

/-- `TaskVerification.getReputationScore`: the peer's record, or a fresh one
with neutral score 0.5 when the peer has no prior history (the source also
stores the fresh record back into the map; every caller relevant here
overwrites that entry immediately afterwards). -/
def getReputationScore (reputationScores : RepMap) (peerId : String) (now : ℕ) :
    ReputationScore :=
  match reputationScores peerId with
  | some r => r
  | none =>
    { peerId := peerId
      score := 0.5
      totalVerifications := 0
      correctVerifications := 0
      falsePositives := 0
      falseNegatives := 0
      lastUpdated := now }

/-- The loop body of `TaskVerification.updateReputationScores` for one
responder: bump the verification counts and recompute
`score = max(0, min(1, accuracy − errorRate·0.5))`. -/
def updateReputation (reputation : ReputationScore)
    (isValid majorityVerification : Bool) (now : ℕ) : ReputationScore :=
  let rep1 := { reputation with
    totalVerifications := reputation.totalVerifications + 1 }
  let verificationCorrect := isValid == majorityVerification
  let rep2 :=
    if verificationCorrect then
      { rep1 with correctVerifications := rep1.correctVerifications + 1 }
    else if isValid && !majorityVerification then
      { rep1 with falsePositives := rep1.falsePositives + 1 }
    else if !isValid && majorityVerification then
      { rep1 with falseNegatives := rep1.falseNegatives + 1 }
    else rep1
  let accuracy : ℚ :=
    (rep2.correctVerifications : ℚ) / (rep2.totalVerifications : ℚ)
  let errorRate : ℚ :=
    ((rep2.falsePositives : ℚ) + (rep2.falseNegatives : ℚ)) /
      (rep2.totalVerifications : ℚ)
  { rep2 with
    score := max 0 (min 1 (accuracy - errorRate * 0.5))
    lastUpdated := now }

/-- One iteration of the `updateReputationScores` loop: read (or create)
the responder's record, update it, and store it back under the responder's
id. -/
def updateReputationStep (consensus : Consensus) (now : ℕ) (m : RepMap)
    (verification : VerificationResponse) : RepMap :=
  let reputation := getReputationScore m verification.verifierId now
  let updated := updateReputation reputation verification.isValid
    (consensus == Consensus.approved) now
  fun k => if k = verification.verifierId then some updated else m k

/-- `TaskVerification.updateReputationScores`: for every recorded response,
update that responder's reputation against
`majorityVerification = (consensus === 'approved')`. -/
def updateReputationScores (reputationScores : RepMap)
    (verificationResult : VerificationResult) (now : ℕ) : RepMap :=
  verificationResult.verifications.foldl
    (updateReputationStep verificationResult.consensus now)
    reputationScores

/-- `requiredVerifications` of `TaskVerification.checkConsensus`:
`Math.min(minVerifiers, Math.ceil(totalVerifications * consensusThreshold))`. -/
def requiredVerifications (totalVerifications : ℕ) : ℚ :=
  min (minVerifiers : ℚ)
    ((⌈(totalVerifications : ℚ) * consensusThreshold⌉ : ℤ) : ℚ)

/-- `TaskVerification.checkConsensus`: the (possibly consensus-updated)
result object together with the returned boolean. -/
def checkConsensus (r : VerificationResult) : VerificationResult × Bool :=
  let totalVerifications := r.verifierCount
  if (totalVerifications : ℚ) < requiredVerifications totalVerifications then
    (r, false)
  else
    let approvalRatio : ℚ := (r.approvalCount : ℚ) / (totalVerifications : ℚ)
    let rejectionRatio : ℚ := (r.rejectionCount : ℚ) / (totalVerifications : ℚ)
    if approvalRatio ≥ consensusThreshold then
      ({ r with consensus := Consensus.approved }, true)
    else if rejectionRatio ≥ consensusThreshold then
      ({ r with consensus := Consensus.rejected }, true)
    else
      (r, false)

/-- The per-verification state of `TaskVerification` for one verification id.
The three `Map`s of the source (`verificationResults`,
`completedVerifications`, `pendingVerifications`) only ever hold (or not
hold) the *same* result object for a given id, so the state is the single
shared object plus one membership flag per map. -/
structure VerState where
  result : Option VerificationResult
  inResults : Bool
  inCompleted : Bool
  inPending : Bool
  reputations : RepMap

/-- The mutation of the shared result object performed by
`TaskVerification.finalizeVerification`. -/
def finalizeResult (r : VerificationResult) (now : ℕ) : VerificationResult :=
  { r with consensusReached := true, finalizedAt := now }

/-- `TaskVerification.finalizeVerification`: mark the result finalized,
update reputations, move the object to `completedVerifications` and delete
it from `verificationResults` and `pendingVerifications`. -/
def finalizeVerification (st : VerState) (r : VerificationResult) (now : ℕ) :
    VerState :=
  let rF := finalizeResult r now
  { st with
    result := some rF
    reputations := updateReputationScores st.reputations rF now
    inCompleted := true
    inResults := false
    inPending := false }

/-- The mutation of the result object in
`TaskVerification.processVerificationResponse` that records one response:
push the response, set `verifierCount`, bump the approval/rejection count
and recompute the average confidence. -/
def recordResponse (r : VerificationResult) (v : VerificationResponse) :
    VerificationResult :=
  let verifications := r.verifications ++ [v]
  let verifierCount := verifications.length
  { r with
    verifications := verifications
    verifierCount := verifierCount
    approvalCount := r.approvalCount + (if v.isValid then 1 else 0)
    rejectionCount := r.rejectionCount + (if v.isValid then 0 else 1)
    averageConfidence :=
      (verifications.map (fun e => e.confidence)).sum / (verifierCount : ℚ) }

/-- `TaskVerification.processVerificationResponse`. `signatureValid` and
`verifierKnown` stand for the outcomes of `verifySignature` and
`getPeerInfo` on the network. Note that after a consensus finalization the
source unconditionally re-inserts the (finalized) result object into
`verificationResults` (line 273), which `inResults := true` mirrors. -/
def processVerificationResponse (st : VerState) (v : VerificationResponse)
    (signatureValid verifierKnown : Bool) (now : ℕ) : VerState :=
  if st.inResults = false then st
  else
    match st.result with
    | none => st
    | some r =>
      if !signatureValid then st
      else if !verifierKnown then st
      else if r.verifications.any (fun e => e.verifierId == v.verifierId) then st
      else
        let r1 := recordResponse r v
        let checked := checkConsensus r1
        if checked.2 then
          { finalizeVerification st checked.1 now with inResults := true }
        else
          { st with result := some checked.1 }

/-- `TaskVerification.handleVerificationTimeout`: on the 60 s deadline, a
result with at least `minVerifiers` responses is force-finalized as it
stands; one with fewer is marked rejected and moved to
`completedVerifications` without a reputation update. -/
def handleVerificationTimeout (st : VerState) (now : ℕ) : VerState :=
  if st.inResults = false then st
  else
    match st.result with
    | none => st
    | some r =>
      if r.consensusReached then st
      else if minVerifiers ≤ r.verifierCount then
        finalizeVerification st r now
      else
        { st with
          result := some { r with
            consensus := Consensus.rejected
            consensusReached := true
            finalizedAt := now }
          inCompleted := true
          inResults := false
          inPending := false }

/-- The verification result as initialized by
`TaskVerification.requestVerification`. -/
def initVerificationResult (verificationId taskId : String) :
    VerificationResult :=
  { verificationId := verificationId
    taskId := taskId
    consensus := Consensus.pending
    verifierCount := 0
    approvalCount := 0
    rejectionCount := 0
    averageConfidence := 0
    consensusReached := false
    finalizedAt := 0
    verifications := [] }

/-- The per-verification state right after `requestVerification`, with an
empty reputation map. -/
def initVerState (verificationId taskId : String) : VerState :=
  { result := some (initVerificationResult verificationId taskId)
    inResults := true
    inCompleted := false
    inPending := true
    reputations := fun _ => none }

/-! ## Task dispatch data model (DHTTaskDistribution.ts) -/

/-- `priority` field values of a task's requirements. -/
inductive TaskPriority
  | low
  | medium
  | high
  | urgent
deriving DecidableEq, Repr

/-- `type` field values of `TaskRequest` (DHTTaskDistribution.ts). -/
inductive TaskType
  | compute
  | storage
  | network
  | aiInference
deriving DecidableEq, Repr

/-- The `requirements` record of a `TaskRequest`. -/
structure TaskRequirements where
  cpuCores : ℚ
  memoryGB : ℚ
  gpuRequired : Bool
  estimatedDuration : ℕ
  priority : TaskPriority
deriving DecidableEq, Repr

/-- `TaskRequest` of DHTTaskDistribution.ts (the opaque `payload` is
embedded as a string). -/
structure TaskRequest where
  id : String
  type : TaskType
  payload : String
  requirements : TaskRequirements
  reward : ℚ
  deadline : ℕ
  submittedBy : String
  timestamp : ℕ
  signature : Option String
deriving DecidableEq, Repr

/-- `TaskAssignment` of DHTTaskDistribution.ts. -/
structure TaskAssignment where
  taskId : String
  assignedTo : String
  assignedAt : ℕ
  expectedCompletion : ℕ
  backupPeers : List String
deriving DecidableEq, Repr

/-- The thermal bonus/penalty object
`{ nominal: 10, fair: 5, serious: -5, critical: -20 }` of
`DHTTaskDistribution.calculatePeerScore`. -/
def thermalScores : ThermalState → ℚ
  | ThermalState.nominal => 10
  | ThermalState.fair => 5
  | ThermalState.serious => -5
  | ThermalState.critical => -20

/-- `DHTTaskDistribution.canPeerHandleTask`: the candidate filter. -/
def canPeerHandleTask (peer : PeerInfo) (requirements : TaskRequirements) :
    Bool :=
  let caps := peer.capabilities
  decide (caps.cpuCores ≥ requirements.cpuCores) &&
  decide (caps.ramGB ≥ requirements.memoryGB) &&
  (!requirements.gpuRequired || caps.gpuAcceleration) &&
  decide (caps.thermalState ≠ ThermalState.critical) &&
  decide (peer.reputation ≥ 0.5)

/-- `DHTTaskDistribution.calculatePeerScore`. -/
def calculatePeerScore (peer : PeerInfo) (task : TaskRequest) : ℚ :=
  let caps := peer.capabilities
  let req := task.requirements
  let score : ℚ :=
    min (caps.cpuCores / req.cpuCores) 2 * 30
    + min (caps.ramGB / req.memoryGB) 2 * 25
    + peer.reputation * 20
    + (if peer.latency < 100 then 15
       else if peer.latency < 200 then 10 else 5)
    + thermalScores caps.thermalState
  max 0 score

/-- `DHTTaskDistribution.findTaskCandidates`: the `getPeerInfo` results for
the nodes returned by the DHT lookup (`candidateLookups`, `none` for an
unknown node) are filtered by the candidate filter, sorted by descending
peer score and cut to the top 10. -/
def findTaskCandidates (task : TaskRequest)
    (candidateLookups : List (Option PeerInfo)) : List PeerInfo :=
  let suitablePeers :=
    ((candidateLookups.filterMap id).filter
        (fun peer => canPeerHandleTask peer task.requirements)).insertionSort
      (fun a b => calculatePeerScore b task ≤ calculatePeerScore a task)
  suitablePeers.take 10

/-- `DHTTaskDistribution.assignTask`: `candidates[0]` is the primary and
`candidates.slice(1, 4)` the backup peers (the caller guarantees a
non-empty candidate list, so the primary is passed separately). -/
def assignTask (task : TaskRequest) (primaryPeer : PeerInfo)
    (laterCandidates : List PeerInfo) (now : ℕ) : TaskAssignment :=
  let backupPeers := (laterCandidates.take 3).map (fun peer => peer.id)
  { taskId := task.id
    assignedTo := primaryPeer.id
    assignedAt := now
    expectedCompletion := now + task.requirements.estimatedDuration
    backupPeers := backupPeers }

/-- The outcome of `DHTTaskDistribution.reportTaskFailure`: either the task
is reassigned to the head of the backup list, or (with no backups left) it
is terminally failed and an error `TaskResult` is sent to the recorded
submitter. -/
inductive FailureOutcome
  | reassigned (newAssignment : TaskAssignment)
  | failed (notifiedSubmitter : String)
deriving DecidableEq, Repr

/-- `DHTTaskDistribution.reportTaskFailure` for a task with a live
assignment. -/
def reportTaskFailure (assignment : TaskAssignment) (task : TaskRequest)
    (now : ℕ) : FailureOutcome :=
  match assignment.backupPeers with
  | newAssignee :: remaining =>
    FailureOutcome.reassigned
      { assignment with
        assignedTo := newAssignee
        assignedAt := now
        backupPeers := remaining }
  | [] => FailureOutcome.failed task.submittedBy

/-- `k` successive failure reports starting from assignment `a`: `some` the
current assignment while reassignment to a backup is still possible, `none`
once a report hit the terminal `failed` branch. -/
def reassignIter (task : TaskRequest) (a : TaskAssignment) (now : ℕ) :
    ℕ → Option TaskAssignment
  | 0 => some a
  | k + 1 =>
    match reassignIter task a now k with
    | some a' =>
      match reportTaskFailure a' task now with
      | FailureOutcome.reassigned a'' => some a''
      | FailureOutcome.failed _ => none
    | none => none

/-- The three task tables of `DHTTaskDistribution` touched by `submitTask`,
keyed by task id. -/
structure DispatchState where
  pendingTasks : String → Option TaskRequest
  activeTasks : String → Option TaskRequest
  taskAssignments : String → Option TaskAssignment

/-- `Omit<TaskRequest, 'id' | 'timestamp' | 'submittedBy'>`: the caller's
task argument to `submitTask`. -/
structure TaskInput where
  type : TaskType
  payload : String
  requirements : TaskRequirements
  reward : ℚ
  deadline : ℕ
  signature : Option String
deriving DecidableEq, Repr

/-- The `TaskRequest` built at the top of `submitTask` from the input, the
generated task id, `Date.now()` and the local node id. -/
def mkTaskRequest (input : TaskInput) (taskId : String) (now : ℕ)
    (localNodeId : String) : TaskRequest :=
  { id := taskId
    type := input.type
    payload := input.payload
    requirements := input.requirements
    reward := input.reward
    deadline := input.deadline
    submittedBy := localNodeId
    timestamp := now
    signature := input.signature }

/-- Point update of one of the string-keyed task tables. -/
def mapUpdate {α : Type} (m : String → Option α) (k : String)
    (v : Option α) : String → Option α :=
  fun q => if q = k then v else m q

/-- `DHTTaskDistribution.submitTask`. `taskId` stands for the id produced
by `generateTaskId`, `candidateLookups` for the network's `getPeerInfo`
answers inside `findTaskCandidates`. On an empty candidate set the thrown
error is caught, the pending entry is deleted and the error is rethrown to
the caller; otherwise the task is assigned and moved to the active
tables. -/
def submitTask (localNodeId : String) (st : DispatchState) (taskId : String)
    (input : TaskInput) (candidateLookups : List (Option PeerInfo))
    (now : ℕ) : DispatchState × Except String String :=
  let taskRequest := mkTaskRequest input taskId now localNodeId
  let st1 := { st with
    pendingTasks := mapUpdate st.pendingTasks taskId (some taskRequest) }
  match findTaskCandidates taskRequest candidateLookups with
  | [] =>
    ({ st1 with pendingTasks := mapUpdate st1.pendingTasks taskId none },
     Except.error "No suitable peers found for task execution")
  | primaryPeer :: laterCandidates =>
    let assignment := assignTask taskRequest primaryPeer laterCandidates now
    ({ st1 with
        taskAssignments :=
          mapUpdate st1.taskAssignments taskId (some assignment)
        activeTasks := mapUpdate st1.activeTasks taskId (some taskRequest)
        pendingTasks := mapUpdate st1.pendingTasks taskId none },
     Except.ok taskId)

/-! ## DHT routing table (DHTTaskDistribution.ts) -/

/-- `DHTNode` of DHTTaskDistribution.ts; node ids are the byte buffers the
source obtains with `Buffer.from(id, 'hex')`. -/
structure DHTNode where
  id : List ℕ
  distance : ℕ
  lastSeen : ℕ
  capabilities : DeviceCapabilities
  reputation : ℚ
deriving DecidableEq, Repr

/-- `DHTTaskDistribution.popcount`: `while (n) { count += n & 1; n >>= 1 }`. -/
def popcount (n : ℕ) : ℕ :=
  if n = 0 then 0 else n % 2 + popcount (n / 2)
decreasing_by exact Nat.div_lt_self (Nat.pos_of_ne_zero (by assumption)) (by omega)

/-- `DHTTaskDistribution.calculateXORDistance`: the sum over the common
length of both buffers of the popcount of the byte-wise XOR — the Hamming
distance of the two ids, not the integer value of their XOR. -/
def calculateXORDistance (buf1 buf2 : List ℕ) : ℕ :=
  (List.zipWith (fun b1 b2 => popcount (b1 ^^^ b2)) buf1 buf2).sum

/-- `this.k = 20`, the Kademlia bucket size. -/
def kBucketSize : ℕ := 20

/-- The bucket index computed in `addNodeToRoutingTable`:
`Math.floor(Math.log2(distance + 1))`. -/
def bucketIndexOf (localNodeId nodeId : List ℕ) : ℕ :=
  Nat.log2 (calculateXORDistance localNodeId nodeId + 1)

/-- The data `addNodeToRoutingTable` reads from `getPeerInfo(nodeId)`. -/
structure DHTPeer where
  id : List ℕ
  capabilities : DeviceCapabilities
  reputation : ℚ
deriving DecidableEq, Repr

/-- `bucket.reduce((oldest, node) => node.lastSeen < oldest.lastSeen ? node
: oldest)`: JavaScript `reduce` without seed starts from the first
element. -/
def lruOf (first : DHTNode) (rest : List DHTNode) : DHTNode :=
  rest.foldl
    (fun oldest node => if node.lastSeen < oldest.lastSeen then node else oldest)
    first

/-- The add-or-update/LRU-eviction block of `addNodeToRoutingTable` on the
target bucket: update the node in place when already present, append while
the bucket holds fewer than k nodes, and otherwise replace the
least-recently-seen node only when its ping failed. -/
def insertIntoBucket (bucket : List DHTNode) (dhtNode : DHTNode)
    (peerId : List ℕ) (lruReachable : Bool) : List DHTNode :=
  match bucket.findIdx? (fun node => decide (node.id = peerId)) with
  | some existingIndex => bucket.set existingIndex dhtNode
  | none =>
    if bucket.length < kBucketSize then bucket ++ [dhtNode]
    else
      match bucket with
      | [] => bucket
      | first :: rest =>
        if lruReachable then bucket
        else
          let lruNode := lruOf first rest
          bucket.set
            (bucket.findIdx (fun node => decide (node.id = lruNode.id)))
            dhtNode

/-- `DHTTaskDistribution.addNodeToRoutingTable` for a node whose
`getPeerInfo` record exists. `lruReachable` stands for the outcome of
`pingNode` on the least-recently-seen node of a full bucket. -/
def addNodeToRoutingTable (localNodeId : List ℕ)
    (buckets : ℕ → List DHTNode) (peer : DHTPeer) (now : ℕ)
    (lruReachable : Bool) : ℕ → List DHTNode :=
  let distance := calculateXORDistance localNodeId peer.id
  let bucketIndex := Nat.log2 (distance + 1)
  let bucket := buckets bucketIndex
  let dhtNode : DHTNode :=
    { id := peer.id
      distance := distance
      lastSeen := now
      capabilities := peer.capabilities
      reputation := peer.reputation }
  let newBucket := insertIntoBucket bucket dhtNode peer.id lruReachable
  fun j => if j = bucketIndex then newBucket else buckets j

/-- `DHTTaskDistribution.removeNodeFromRoutingTable`: splice the node out
of the first bucket (in index order 0..159) that contains it. -/
def removeNodeFromRoutingTable (buckets : ℕ → List DHTNode)
    (nodeId : List ℕ) : ℕ → List DHTNode :=
  match (List.range 160).find?
      (fun i => (buckets i).any (fun node => decide (node.id = nodeId))) with
  | none => buckets
  | some i =>
    fun j =>
      if j = i then (buckets i).eraseP (fun node => decide (node.id = nodeId))
      else buckets j

/-- The operations that ever touch `routingTable.buckets`. -/
inductive RoutingOp
  | addNode (peer : DHTPeer) (now : ℕ) (lruReachable : Bool)
  | removeNode (nodeId : List ℕ)

/-- One routing-table operation. -/
def applyRoutingOp (localNodeId : List ℕ) (buckets : ℕ → List DHTNode) :
    RoutingOp → (ℕ → List DHTNode)
  | RoutingOp.addNode peer now lruReachable =>
    addNodeToRoutingTable localNodeId buckets peer now lruReachable
  | RoutingOp.removeNode nodeId =>
    removeNodeFromRoutingTable buckets nodeId

/-- The routing table reached from the empty table (`initializeRoutingTable`
fills buckets 0..159 with `[]`) by a sequence of operations. -/
def buildRoutingTable (localNodeId : List ℕ) (ops : List RoutingOp) :
    ℕ → List DHTNode :=
  ops.foldl (applyRoutingOp localNodeId) (fun _ => [])

/-- Modelled from the spec: the XOR distance of two ids as the integer
value (big-endian) of the byte-wise XOR of the two 160-bit buffers — the
distance the spec's `bucket_index(N) = ⌊log2(xor(local, N))⌋` refers to. -/
def specXorDistance (buf1 buf2 : List ℕ) : ℕ :=
  (List.zipWith (fun b1 b2 => b1 ^^^ b2) buf1 buf2).foldl
    (fun acc b => acc * 256 + b) 0

/-- Modelled from the spec: `bucket_index(N) = ⌊log2(xor(local, N))⌋`. -/
def specBucketIndex (localNodeId nodeId : List ℕ) : ℕ :=
  Nat.log2 (specXorDistance localNodeId nodeId)

/-! ## Security monitoring (NetworkResilience.ts) -/

/-- The loop body of `NetworkResilience.detectMaliciousPeers` for one
reputation record: push the peer once for a consistently low score, and
once more for a high false-positive/negative rate. -/
def detectMaliciousStep (maliciousPeers : List String)
    (reputation : ReputationScore) : List String :=
  let withLowScore :=
    if reputation.score < 0.2 ∧ reputation.totalVerifications > 5 then
      maliciousPeers ++ [reputation.peerId]
    else maliciousPeers
  let errorRate : ℚ :=
    ((reputation.falsePositives : ℚ) + (reputation.falseNegatives : ℚ)) /
      (reputation.totalVerifications : ℚ)
  if errorRate > 0.5 ∧ reputation.totalVerifications > 10 then
    withLowScore ++ [reputation.peerId]
  else withLowScore

/-- `NetworkResilience.detectMaliciousPeers` over the reputation list
returned by `taskVerification.getReputationScores()`; `[...new Set(x)]` is
embedded as `List.dedup` (membership-preserving duplicate removal). -/
def detectMaliciousPeers (reputationScores : List ReputationScore) :
    List String :=
  (reputationScores.foldl detectMaliciousStep []).dedup

/-! ## Concrete sample data used by closed theorems -/

/-- A concrete verification response from verifier `p`, approving iff `ok`. -/
def sampleResponse (p : String) (ok : Bool) (t : ℕ) : VerificationResponse :=
  { verificationId := "ver1"
    verifierId := p
    taskId := "task1"
    isValid := ok
    confidence := 0.5
    details :=
      { resultHash := "h"
        executionTimeValid := true
        resourceUsageValid := true
        outputValid := ok }
    timestamp := t
    signature := some "sig" }

/-- A not-yet-finalized verification outcome holding three recorded
responses (two approvals, one rejection), as it stands when the 60 s
deadline fires. -/
def timedOutResult : VerificationResult :=
  { initVerificationResult "ver2" "task2" with
    verifierCount := 3
    approvalCount := 2
    rejectionCount := 1
    averageConfidence := 0.5
    verifications :=
      [sampleResponse "q1" true 1, sampleResponse "q2" true 2,
       sampleResponse "q3" false 3] }

/-- The verification state holding `timedOutResult` when the deadline
fires. -/
def timedOutVerState : VerState :=
  { result := some timedOutResult
    inResults := true
    inCompleted := false
    inPending := true
    reputations := fun _ => none }

/-- The result object after the first approving response `p1`: consensus
fires immediately (approval ratio 1/1) and the outcome is finalized
Approved. -/
def c3r1 : VerificationResult :=
  { verificationId := "ver1"
    taskId := "task1"
    consensus := Consensus.approved
    verifierCount := 1
    approvalCount := 1
    rejectionCount := 0
    averageConfidence := 1/2
    consensusReached := true
    finalizedAt := 1
    verifications := [sampleResponse "p1" true 1] }

/-- The verification state after the first response. -/
def c3state1 : VerState :=
  { result := some c3r1
    inResults := true
    inCompleted := true
    inPending := false
    reputations := updateReputationScores (fun _ => none) c3r1 1 }

/-- The (already finalized) result object after the late rejection from
`p2` mutates it. -/
def c3r2 : VerificationResult :=
  { c3r1 with
    verifierCount := 2
    approvalCount := 1
    rejectionCount := 1
    averageConfidence := 1/2
    verifications := [sampleResponse "p1" true 1, sampleResponse "p2" false 2] }

/-- The verification state after the late rejection from `p2`. -/
def c3state2 : VerState :=
  { c3state1 with result := some c3r2 }

/-- The result object after the late rejection from `p3`. -/
def c3r3 : VerificationResult :=
  { c3r1 with
    verifierCount := 3
    approvalCount := 1
    rejectionCount := 2
    averageConfidence := 1/2
    verifications := [sampleResponse "p1" true 1, sampleResponse "p2" false 2,
      sampleResponse "p3" false 3] }

/-- The verification state after the late rejection from `p3`. -/
def c3state3 : VerState :=
  { c3state1 with result := some c3r3 }

/-- The result object after the late rejection from `p4`: the rejection
ratio 3/4 now crosses 0.67, the consensus flips to Rejected and the
outcome is re-finalized. -/
def c3r4 : VerificationResult :=
  { c3r1 with
    consensus := Consensus.rejected
    verifierCount := 4
    approvalCount := 1
    rejectionCount := 3
    averageConfidence := 1/2
    finalizedAt := 4
    verifications := [sampleResponse "p1" true 1, sampleResponse "p2" false 2,
      sampleResponse "p3" false 3, sampleResponse "p4" false 4] }

/-- The verification state after the late rejection from `p4`. -/
def c3state4 : VerState :=
  { result := some c3r4
    inResults := true
    inCompleted := true
    inPending := false
    reputations := updateReputationScores
      (updateReputationScores (fun _ => none) c3r1 1) c3r4 4 }

/-- The counter identity the reputation counters are expected to satisfy:
every recorded verification is exactly one of correct, false positive or
false negative. -/
def RepInv (r : ReputationScore) : Prop :=
  r.totalVerifications =
    r.correctVerifications + r.falsePositives + r.falseNegatives

/-- Pointwise non-decrease of the four reputation counters. -/
def counterLe (r s : ReputationScore) : Prop :=
  r.totalVerifications ≤ s.totalVerifications ∧
  r.correctVerifications ≤ s.correctVerifications ∧
  r.falsePositives ≤ s.falsePositives ∧
  r.falseNegatives ≤ s.falseNegatives

/-- A reputation record after 5 verifications, 3 of them wrong:
`score = clamp(2/5 − 0.5·(3/5), 0, 1) = 0.1`, below the 0.2 threshold. -/
def c8Rep : ReputationScore :=
  { peerId := "x"
    score := 0.1
    totalVerifications := 5
    correctVerifications := 2
    falsePositives := 3
    falseNegatives := 0
    lastUpdated := 0 }

/-- A reputation record matching the spec scenario "6 verifications with
reputation 0.15". -/
def c8RepSix : ReputationScore :=
  { peerId := "x"
    score := 0.15
    totalVerifications := 6
    correctVerifications := 2
    falsePositives := 4
    falseNegatives := 0
    lastUpdated := 0 }

/-- The flag condition of `detectMaliciousPeers` for one reputation record:
consistently low score (strictly more than 5 verifications), or high
false-positive/negative rate (strictly more than 10 verifications). -/
def maliciousCondition (reputation : ReputationScore) : Prop :=
  (reputation.score < 0.2 ∧ reputation.totalVerifications > 5) ∨
  (((reputation.falsePositives : ℚ) + (reputation.falseNegatives : ℚ)) /
      (reputation.totalVerifications : ℚ) > 0.5 ∧
    reputation.totalVerifications > 10)

/-- A capable device: 8 cores, 16 GB, gpu, nominal thermal state. -/
def sampleCaps : DeviceCapabilities :=
  { computeTier := ComputeTier.high
    cpuCores := 8
    ramGB := 16
    gpuAcceleration := true
    networkBandwidth := 100
    batteryLevel := some 80
    thermalState := ThermalState.nominal }

/-- A connected peer with good reputation running `sampleCaps`. -/
def samplePeer : PeerInfo :=
  { id := "peerA"
    publicKey := "pk"
    capabilities := sampleCaps
    reputation := 0.9
    latency := 50
    lastSeen := 0
    status := PeerStatus.connected }

/-- Requirements of a small compute task: 2 cores, 4 GB, no gpu. -/
def sampleReq : TaskRequirements :=
  { cpuCores := 2
    memoryGB := 4
    gpuRequired := false
    estimatedDuration := 60
    priority := TaskPriority.medium }

/-- A caller-side task input for `submitTask`. -/
def sampleInput : TaskInput :=
  { type := TaskType.compute
    payload := "p"
    requirements := sampleReq
    reward := 1
    deadline := 100
    signature := none }

/-- The task request `submitTask` builds from `sampleInput`. -/
def sampleTask : TaskRequest := mkTaskRequest sampleInput "task9" 5 "local"

/-- A dispatch state with empty task tables. -/
def emptyDispatchState : DispatchState :=
  { pendingTasks := fun _ => none
    activeTasks := fun _ => none
    taskAssignments := fun _ => none }

/-- The routing-table well-formedness the source maintains: every node
sits in the bucket `⌊log2(hamming(local, id) + 1)⌋` determined by its id,
with its stored distance equal to the Hamming distance. -/
def TableWF (localNodeId : List ℕ) (buckets : ℕ → List DHTNode) : Prop :=
  ∀ i node, node ∈ buckets i →
    i = bucketIndexOf localNodeId node.id ∧
    node.distance = calculateXORDistance localNodeId node.id

/-- A 160-bit local id whose only set bit is bit 2 (big-endian byte
buffer, value 4). -/
def c5LocalId : List ℕ :=
  [0, 0, 0, 0, 0, 0, 0, 0, 0, 0, 0, 0, 0, 0, 0, 0, 0, 0, 0, 4]

/-- The all-zero 160-bit node id. -/
def c5NodeId : List ℕ :=
  [0, 0, 0, 0, 0, 0, 0, 0, 0, 0, 0, 0, 0, 0, 0, 0, 0, 0, 0, 0]

/-- The peer record for the all-zero node id. -/
def c5Peer : DHTPeer :=
  { id := c5NodeId, capabilities := sampleCaps, reputation := 0.9 }

/-- The `DHTNode` that `addNodeToRoutingTable` builds for `c5Peer` at time
7: its stored distance is the Hamming distance 1 (one differing bit). -/
def c5Node : DHTNode :=
  { id := c5NodeId
    distance := 1
    lastSeen := 7
    capabilities := sampleCaps
    reputation := 0.9 }

/-- The routing table after adding `c5Peer` to the empty table. -/
def c5Table : ℕ → List DHTNode :=
  buildRoutingTable c5LocalId [RoutingOp.addNode c5Peer 7 true]

/-! ## Helper lemmas -/

/-- Evaluation of integer ceilings of concrete rationals. -/
theorem ceilEval (q : ℚ) (z : ℤ) (h1 : (z : ℚ) - 1 < q) (h2 : q ≤ (z : ℚ)) :
    (⌈q⌉ : ℤ) = z := by
  rw [Int.ceil_eq_iff]
  exact ⟨h1, h2⟩

theorem requiredVerifications_one : requiredVerifications 1 = 1 := by
  unfold requiredVerifications
  rw [ceilEval (((1 : ℕ) : ℚ) * consensusThreshold) 1
    (by norm_num [consensusThreshold]) (by norm_num [consensusThreshold])]
  norm_num [minVerifiers]

theorem requiredVerifications_two : requiredVerifications 2 = 2 := by
  unfold requiredVerifications
  rw [ceilEval (((2 : ℕ) : ℚ) * consensusThreshold) 2
    (by norm_num [consensusThreshold]) (by norm_num [consensusThreshold])]
  norm_num [minVerifiers]

theorem requiredVerifications_three : requiredVerifications 3 = 3 := by
  unfold requiredVerifications
  rw [ceilEval (((3 : ℕ) : ℚ) * consensusThreshold) 3
    (by norm_num [consensusThreshold]) (by norm_num [consensusThreshold])]
  norm_num [minVerifiers]

theorem requiredVerifications_four : requiredVerifications 4 = 3 := by
  unfold requiredVerifications
  rw [ceilEval (((4 : ℕ) : ℚ) * consensusThreshold) 3
    (by norm_num [consensusThreshold]) (by norm_num [consensusThreshold])]
  norm_num [minVerifiers]

/-- **C1** (code bug). The source finalizes a verification as Approved on a
single approving response: with one recorded response the gate
`totalVerifications < min(minVerifiers, ceil(total·0.67))` never fires
(`min` makes it vacuous for every `n`), the approval ratio is 1 ≥ 0.67 and
the outcome is finalized with `approvalCount = 1 < 3`, contradicting the
claim that Approved requires at least 3 approving responses. -/
theorem c1_single_approval_finalizes_approved :
    (processVerificationResponse (initVerState "ver1" "task1")
        (sampleResponse "p1" true 1) true true 1).result.map
        (fun r => r.consensus) = some Consensus.approved ∧
    (processVerificationResponse (initVerState "ver1" "task1")
        (sampleResponse "p1" true 1) true true 1).result.map
        (fun r => r.consensusReached) = some true ∧
    (processVerificationResponse (initVerState "ver1" "task1")
        (sampleResponse "p1" true 1) true true 1).result.map
        (fun r => r.approvalCount) = some 1 ∧
    (processVerificationResponse (initVerState "ver1" "task1")
        (sampleResponse "p1" true 1) true true 1).inCompleted = true := by
  norm_num [processVerificationResponse, initVerState, initVerificationResult,
    sampleResponse, recordResponse, checkConsensus, requiredVerifications_one,
    finalizeVerification, finalizeResult, consensusThreshold,
    updateReputationScores, updateReputationStep, updateReputation,
    getReputationScore]

/-- **C2** (counterexample). At the deadline the source force-finalizes an
outcome with 3 recorded responses *without comparing the ratios*: with 2
approvals and 1 rejection (approval ratio 2/3 greater than rejection ratio
1/3) the claim demands finalization as Approved, but the outcome is
finalized with consensus still Pending. -/
theorem c2_counterexample_timeout_leaves_pending :
    timedOutResult.verifierCount = 3 ∧
    timedOutResult.approvalCount = 2 ∧
    timedOutResult.rejectionCount = 1 ∧
    timedOutResult.consensusReached = false ∧
    (handleVerificationTimeout timedOutVerState 60).result.map
      (fun r => r.consensusReached) = some true ∧
    (handleVerificationTimeout timedOutVerState 60).inCompleted = true ∧
    (handleVerificationTimeout timedOutVerState 60).result.map
      (fun r => r.consensus) = some Consensus.pending := by
  norm_num [timedOutVerState, timedOutResult, handleVerificationTimeout,
    minVerifiers, finalizeVerification, finalizeResult,
    initVerificationResult]

/-- **C2** (amended). When the 60-second deadline fires on a
not-yet-finalized outcome: with at least `minVerifiers = 3` recorded
responses the outcome is force-finalized with its consensus value left
unchanged (no ratio comparison is performed, so it stays Pending when no
67% consensus was reached); with fewer than 3 responses it is finalized
Rejected. In both cases it moves to the completed map. -/
theorem c2_amended_timeout_finalization (st : VerState)
    (r : VerificationResult) (now : ℕ) (hin : st.inResults = true)
    (hr : st.result = some r) (hnf : r.consensusReached = false) :
    (minVerifiers ≤ r.verifierCount →
      (handleVerificationTimeout st now).result =
        some (finalizeResult r now) ∧
      (finalizeResult r now).consensus = r.consensus ∧
      (handleVerificationTimeout st now).inCompleted = true ∧
      (handleVerificationTimeout st now).inResults = false) ∧
    (r.verifierCount < minVerifiers →
      (handleVerificationTimeout st now).result =
        some { r with
          consensus := Consensus.rejected
          consensusReached := true
          finalizedAt := now } ∧
      (handleVerificationTimeout st now).inCompleted = true ∧
      (handleVerificationTimeout st now).inResults = false) := by
  constructor
  · intro h
    simp [handleVerificationTimeout, hin, hr, hnf, h, finalizeVerification,
      finalizeResult]
  · intro h
    have h3 : ¬ minVerifiers ≤ r.verifierCount := by omega
    simp [handleVerificationTimeout, hin, hr, hnf, h3]

/-- **C2** (witness): the amended behavior evaluated on the concrete
timed-out outcome with 3 responses. -/
theorem c2_amended_timeout_finalization_witness :
    (minVerifiers ≤ timedOutResult.verifierCount →
      (handleVerificationTimeout timedOutVerState 60).result =
        some (finalizeResult timedOutResult 60) ∧
      (finalizeResult timedOutResult 60).consensus =
        timedOutResult.consensus ∧
      (handleVerificationTimeout timedOutVerState 60).inCompleted = true ∧
      (handleVerificationTimeout timedOutVerState 60).inResults = false) ∧
    (timedOutResult.verifierCount < minVerifiers →
      (handleVerificationTimeout timedOutVerState 60).result =
        some { timedOutResult with
          consensus := Consensus.rejected
          consensusReached := true
          finalizedAt := 60 } ∧
      (handleVerificationTimeout timedOutVerState 60).inCompleted = true ∧
      (handleVerificationTimeout timedOutVerState 60).inResults = false) :=
  c2_amended_timeout_finalization timedOutVerState timedOutResult 60 rfl rfl
    rfl

/-- **C3** (code bug). After `finalizeVerification` deletes the outcome
from `verificationResults`, `processVerificationResponse` unconditionally
re-inserts the finalized object (source line 273); late responses from new
verifiers therefore keep mutating the recorded counts and can even flip
the consensus: one approving response finalizes the outcome Approved, and
three late rejections re-finalize the *same* outcome Rejected. -/
theorem c3_consensus_reverts_after_finalization :
    (processVerificationResponse (initVerState "ver1" "task1")
        (sampleResponse "p1" true 1) true true 1).result.map
        (fun r => r.consensus) = some Consensus.approved ∧
    (processVerificationResponse (initVerState "ver1" "task1")
        (sampleResponse "p1" true 1) true true 1).result.map
        (fun r => r.consensusReached) = some true ∧
    (processVerificationResponse (processVerificationResponse
        (initVerState "ver1" "task1") (sampleResponse "p1" true 1) true true
        1) (sampleResponse "p2" false 2) true true 2).result.map
        (fun r => r.verifierCount) = some 2 ∧
    (processVerificationResponse (processVerificationResponse
        (processVerificationResponse (processVerificationResponse
        (initVerState "ver1" "task1") (sampleResponse "p1" true 1) true true
        1) (sampleResponse "p2" false 2) true true 2)
        (sampleResponse "p3" false 3) true true 3)
        (sampleResponse "p4" false 4) true true 4).result.map
        (fun r => r.consensus) = some Consensus.rejected ∧
    (processVerificationResponse (processVerificationResponse
        (processVerificationResponse (processVerificationResponse
        (initVerState "ver1" "task1") (sampleResponse "p1" true 1) true true
        1) (sampleResponse "p2" false 2) true true 2)
        (sampleResponse "p3" false 3) true true 3)
        (sampleResponse "p4" false 4) true true 4).inCompleted = true := by
  have h1 : processVerificationResponse (initVerState "ver1" "task1")
      (sampleResponse "p1" true 1) true true 1 = c3state1 := by
    norm_num [processVerificationResponse, initVerState,
      initVerificationResult, sampleResponse, recordResponse, checkConsensus,
      requiredVerifications_one, finalizeVerification, finalizeResult,
      consensusThreshold, c3state1, c3r1]
  have h2 : processVerificationResponse c3state1
      (sampleResponse "p2" false 2) true true 2 = c3state2 := by
    norm_num [processVerificationResponse, sampleResponse, recordResponse,
      checkConsensus, requiredVerifications_two, consensusThreshold,
      c3state1, c3state2, c3r1, c3r2]
    try decide
  have h3 : processVerificationResponse c3state2
      (sampleResponse "p3" false 3) true true 3 = c3state3 := by
    norm_num [processVerificationResponse, sampleResponse, recordResponse,
      checkConsensus, requiredVerifications_three, consensusThreshold,
      c3state1, c3state2, c3state3, c3r1, c3r2, c3r3]
    try decide
  have h4 : processVerificationResponse c3state3
      (sampleResponse "p4" false 4) true true 4 = c3state4 := by
    norm_num [processVerificationResponse, sampleResponse, recordResponse,
      checkConsensus, requiredVerifications_four, finalizeVerification,
      finalizeResult, consensusThreshold, c3state1, c3state3, c3state4,
      c3r1, c3r3, c3r4]
    try decide
  rw [h1, h2, h3, h4]
  refine ⟨?_, ?_, ?_, ?_, ?_⟩ <;>
    simp [c3state1, c3state2, c3state4, c3r1, c3r2, c3r4]

/-! ## Reputation lemmas (C4, C10) -/

theorem updateReputationStep_apply_ne (c : Consensus) (now : ℕ) (m : RepMap)
    (v : VerificationResponse) (k : String) (h : k ≠ v.verifierId) :
    updateReputationStep c now m v k = m k := by
  simp [updateReputationStep, h]

theorem updateReputationStep_apply_self (c : Consensus) (now : ℕ)
    (m : RepMap) (v : VerificationResponse) :
    updateReputationStep c now m v v.verifierId =
      some (updateReputation (getReputationScore m v.verifierId now)
        v.isValid (c == Consensus.approved) now) := by
  simp [updateReputationStep]

theorem foldl_updateReputationStep_apply_ne (c : Consensus) (now : ℕ) :
    ∀ (l : List VerificationResponse) (m : RepMap) (k : String),
      (∀ v ∈ l, k ≠ v.verifierId) →
      l.foldl (updateReputationStep c now) m k = m k := by
  intro l
  induction l with
  | nil => intro m k h; rfl
  | cons w ws ih =>
    intro m k h
    rw [List.foldl_cons, ih _ _ (fun v hv => h v (List.mem_cons_of_mem w hv)),
      updateReputationStep_apply_ne c now m w k (h w (List.mem_cons_self w ws))]

theorem getReputationScore_congr (m1 m2 : RepMap) (k : String) (now : ℕ)
    (h : m1 k = m2 k) :
    getReputationScore m1 k now = getReputationScore m2 k now := by
  unfold getReputationScore
  rw [h]

theorem foldl_updateReputationStep_lookup (c : Consensus) (now : ℕ) :
    ∀ (l : List VerificationResponse) (m : RepMap) (v : VerificationResponse),
      l.Pairwise (fun a b => a.verifierId ≠ b.verifierId) →
      v ∈ l →
      l.foldl (updateReputationStep c now) m v.verifierId =
        some (updateReputation (getReputationScore m v.verifierId now)
          v.isValid (c == Consensus.approved) now) := by
  intro l
  induction l with
  | nil => intro m v _ hmem; cases hmem
  | cons w ws ih =>
    intro m v hpair hmem
    have hw := (List.pairwise_cons.mp hpair).1
    have hws := (List.pairwise_cons.mp hpair).2
    rcases List.mem_cons.mp hmem with hv | hv
    · subst hv
      rw [List.foldl_cons,
        foldl_updateReputationStep_apply_ne c now ws
          (updateReputationStep c now m v) v.verifierId
          (fun b hb => hw b hb),
        updateReputationStep_apply_self]
    · rw [List.foldl_cons, ih (updateReputationStep c now m w) v hws hv,
        getReputationScore_congr _ m _ now
          (updateReputationStep_apply_ne c now m w v.verifierId
            (fun he => hw v hv he.symm) )]

theorem updateReputation_counts (rep : ReputationScore)
    (isValid majority : Bool) (now : ℕ) :
    (updateReputation rep isValid majority now).totalVerifications =
      rep.totalVerifications + 1 ∧
    (updateReputation rep isValid majority now).correctVerifications =
      rep.correctVerifications + (if isValid = majority then 1 else 0) ∧
    (updateReputation rep isValid majority now).falsePositives =
      rep.falsePositives +
        (if isValid = true ∧ majority = false then 1 else 0) ∧
    (updateReputation rep isValid majority now).falseNegatives =
      rep.falseNegatives +
        (if isValid = false ∧ majority = true then 1 else 0) := by
  cases isValid <;> cases majority <;> simp [updateReputation]

theorem updateReputation_score_def (rep : ReputationScore)
    (isValid majority : Bool) (now : ℕ) :
    (updateReputation rep isValid majority now).score =
      max 0 (min 1
        ((((updateReputation rep isValid majority now).correctVerifications : ℚ) /
          ((updateReputation rep isValid majority now).totalVerifications : ℚ)) -
         ((((updateReputation rep isValid majority now).falsePositives : ℚ) +
           ((updateReputation rep isValid majority now).falseNegatives : ℚ)) /
          ((updateReputation rep isValid majority now).totalVerifications : ℚ)) *
           0.5)) := by
  cases isValid <;> cases majority <;> simp [updateReputation]

theorem updateReputation_repInv (rep : ReputationScore)
    (isValid majority : Bool) (now : ℕ) (h : RepInv rep) :
    RepInv (updateReputation rep isValid majority now) := by
  unfold RepInv at h ⊢
  cases isValid <;> cases majority <;> simp [updateReputation] <;> omega

theorem updateReputation_counterLe (rep : ReputationScore)
    (isValid majority : Bool) (now : ℕ) :
    counterLe rep (updateReputation rep isValid majority now) := by
  unfold counterLe
  cases isValid <;> cases majority <;> simp [updateReputation]

theorem counterLe_trans (a b c : ReputationScore) (h1 : counterLe a b)
    (h2 : counterLe b c) : counterLe a c := by
  unfold counterLe at h1 h2 ⊢
  omega

theorem getReputationScore_repInv (m : RepMap) (k : String) (now : ℕ)
    (hm : ∀ q r, m q = some r → RepInv r) :
    RepInv (getReputationScore m k now) := by
  unfold getReputationScore
  cases hq : m k with
  | some r => exact hm k r hq
  | none => simp [RepInv]

theorem foldl_updateReputationStep_repInv (c : Consensus) (now : ℕ) :
    ∀ (l : List VerificationResponse) (m : RepMap),
      (∀ q r, m q = some r → RepInv r) →
      ∀ q r, l.foldl (updateReputationStep c now) m q = some r → RepInv r := by
  intro l
  induction l with
  | nil => intro m hm q r h; exact hm q r h
  | cons w ws ih =>
    intro m hm q r h
    refine ih (updateReputationStep c now m w) ?_ q r h
    intro q2 r2 h2
    unfold updateReputationStep at h2
    by_cases he : q2 = w.verifierId
    · simp only [he, if_pos rfl] at h2
      cases h2
      exact updateReputation_repInv _ _ _ _
        (getReputationScore_repInv m w.verifierId now hm)
    · simp only [if_neg he] at h2
      exact hm q2 r2 h2

theorem foldl_updateReputationStep_counterLe (c : Consensus) (now : ℕ) :
    ∀ (l : List VerificationResponse) (m : RepMap) (k : String)
      (r : ReputationScore), m k = some r →
      ∃ s, l.foldl (updateReputationStep c now) m k = some s ∧ counterLe r s := by
  intro l
  induction l with
  | nil => intro m k r h; exact ⟨r, h, by unfold counterLe; omega⟩
  | cons w ws ih =>
    intro m k r h
    by_cases he : k = w.verifierId
    · obtain ⟨s, hs, hles⟩ := ih (updateReputationStep c now m w) k
        (updateReputation (getReputationScore m k now) w.isValid
          (c == Consensus.approved) now)
        (by rw [he]; exact updateReputationStep_apply_self c now m w)
      refine ⟨s, by rw [List.foldl_cons]; exact hs, ?_⟩
      refine counterLe_trans r _ s ?_ hles
      have hget : getReputationScore m k now = r := by
        unfold getReputationScore
        rw [h]
      rw [← hget]
      exact updateReputation_counterLe _ _ _ _
    · obtain ⟨s, hs, hles⟩ := ih (updateReputationStep c now m w) k r
        (by rw [updateReputationStep_apply_ne c now m w k he]; exact h)
      exact ⟨s, by rw [List.foldl_cons]; exact hs, hles⟩

/-- **C4**. Reputation is touched only by `updateReputationScores`, which
only `finalizeVerification` calls: a peer with no prior history starts at
neutral score 0.5; on finalization each responder's record becomes
`updateReputation` of its previous record against
`majority = (consensus == approved)`, which always increments `total`,
increments `correct` iff `is_valid = majority`, `falsePositives` iff
`is_valid ∧ ¬majority`, `falseNegatives` iff `¬is_valid ∧ majority`, and
recomputes `score = clamp(accuracy − 0.5·error_rate, 0, 1)` over the
updated counters; a processed response that does not reach consensus
leaves the reputation map unchanged. -/
theorem c4_reputation_update_on_finalization
    (m : RepMap) (p : String) (t : ℕ) (hfresh : m p = none)
    (vr : VerificationResult) (v : VerificationResponse) (now : ℕ)
    (hdis : vr.verifications.Pairwise (fun a b => a.verifierId ≠ b.verifierId))
    (hmem : v ∈ vr.verifications)
    (rep : ReputationScore) (isValid majority : Bool) :
    (getReputationScore m p t).score = 0.5 ∧
    (getReputationScore m p t).totalVerifications = 0 ∧
    updateReputationScores m vr now v.verifierId =
      some (updateReputation (getReputationScore m v.verifierId now)
        v.isValid (vr.consensus == Consensus.approved) now) ∧
    (updateReputation rep isValid majority now).totalVerifications =
      rep.totalVerifications + 1 ∧
    (updateReputation rep isValid majority now).correctVerifications =
      rep.correctVerifications + (if isValid = majority then 1 else 0) ∧
    (updateReputation rep isValid majority now).falsePositives =
      rep.falsePositives +
        (if isValid = true ∧ majority = false then 1 else 0) ∧
    (updateReputation rep isValid majority now).falseNegatives =
      rep.falseNegatives +
        (if isValid = false ∧ majority = true then 1 else 0) ∧
    (updateReputation rep isValid majority now).score =
      max 0 (min 1
        ((((updateReputation rep isValid majority now).correctVerifications : ℚ) /
          ((updateReputation rep isValid majority now).totalVerifications : ℚ)) -
         ((((updateReputation rep isValid majority now).falsePositives : ℚ) +
           ((updateReputation rep isValid majority now).falseNegatives : ℚ)) /
          ((updateReputation rep isValid majority now).totalVerifications : ℚ)) *
           0.5)) ∧
    (∀ (st : VerState) (rr : VerificationResult), st.result = some rr →
      (checkConsensus (recordResponse rr v)).2 = false →
      (processVerificationResponse st v true true now).reputations =
        st.reputations) := by
  refine ⟨?_, ?_, ?_, (updateReputation_counts rep isValid majority now).1,
    (updateReputation_counts rep isValid majority now).2.1,
    (updateReputation_counts rep isValid majority now).2.2.1,
    (updateReputation_counts rep isValid majority now).2.2.2,
    updateReputation_score_def rep isValid majority now, ?_⟩
  · simp [getReputationScore, hfresh]
  · simp [getReputationScore, hfresh]
  · show vr.verifications.foldl (updateReputationStep vr.consensus now) m
        v.verifierId = _
    exact foldl_updateReputationStep_lookup vr.consensus now vr.verifications
      m v hdis hmem
  · intro st rr hst hcc
    by_cases hin : st.inResults = false
    · simp [processVerificationResponse, hin]
    · have hin2 : st.inResults = true := by
        revert hin; cases st.inResults <;> simp
      by_cases hdup :
          rr.verifications.any (fun e => e.verifierId == v.verifierId)
      · simp [processVerificationResponse, hin2, hst, hdup]
      · simp [processVerificationResponse, hin2, hst, hdup, hcc]

/-- **C4** (witness): hypotheses discharged at the one-response Approved
outcome `c3r1` and a fresh reputation map. -/
theorem c4_reputation_update_witness :
    (getReputationScore (fun _ => none) "w" 0).score = 0.5 ∧
    updateReputationScores (fun _ => none) c3r1 9 "p1" =
      some (updateReputation (getReputationScore (fun _ => none) "p1" 9)
        true (c3r1.consensus == Consensus.approved) 9) :=
  ⟨(c4_reputation_update_on_finalization (fun _ => none) "w" 0 rfl c3r1
      (sampleResponse "p1" true 1) 9
      (by simp [c3r1]) (by simp [c3r1])
      (getReputationScore (fun _ => none) "z" 0) false true).1,
   (c4_reputation_update_on_finalization (fun _ => none) "w" 0 rfl c3r1
      (sampleResponse "p1" true 1) 9
      (by simp [c3r1]) (by simp [c3r1])
      (getReputationScore (fun _ => none) "z" 0) false true).2.2.1⟩

/-- **C10**. Every reputation update preserves
`total = correct + fp + fn`, never decreases any of the four counters
(both for one `updateReputation` call and across a whole
`updateReputationScores` pass for every peer that had a record), and
consequently `accuracy + error_rate = 1` for the updated record and the
recomputed score equals `clamp(1 − 1.5·(fp+fn)/total, 0, 1)`. -/
theorem c10_reputation_counter_invariants (m : RepMap)
    (vr : VerificationResult) (now t : ℕ) (rep : ReputationScore)
    (isValid majority : Bool)
    (hm : ∀ k r, m k = some r → RepInv r) (hrep : RepInv rep) :
    RepInv (updateReputation rep isValid majority t) ∧
    counterLe rep (updateReputation rep isValid majority t) ∧
    ((updateReputation rep isValid majority t).correctVerifications : ℚ) /
        ((updateReputation rep isValid majority t).totalVerifications : ℚ) +
      (((updateReputation rep isValid majority t).falsePositives : ℚ) +
        ((updateReputation rep isValid majority t).falseNegatives : ℚ)) /
        ((updateReputation rep isValid majority t).totalVerifications : ℚ) =
      1 ∧
    (updateReputation rep isValid majority t).score =
      max 0 (min 1 (1 - 3/2 *
        ((((updateReputation rep isValid majority t).falsePositives : ℚ) +
          ((updateReputation rep isValid majority t).falseNegatives : ℚ)) /
         ((updateReputation rep isValid majority t).totalVerifications : ℚ)))) ∧
    (∀ k r, updateReputationScores m vr now k = some r → RepInv r) ∧
    (∀ k r, m k = some r →
      ∃ s, updateReputationScores m vr now k = some s ∧ counterLe r s) := by
  have hu : RepInv (updateReputation rep isValid majority t) :=
    updateReputation_repInv rep isValid majority t hrep
  have htot : (updateReputation rep isValid majority t).totalVerifications =
      rep.totalVerifications + 1 :=
    (updateReputation_counts rep isValid majority t).1
  have htne : ((updateReputation rep isValid majority t).totalVerifications : ℚ)
      ≠ 0 := by
    rw [htot]
    exact_mod_cast Nat.succ_ne_zero rep.totalVerifications
  have hacc : ((updateReputation rep isValid majority t).correctVerifications : ℚ) /
      ((updateReputation rep isValid majority t).totalVerifications : ℚ) =
      1 - (((updateReputation rep isValid majority t).falsePositives : ℚ) +
        ((updateReputation rep isValid majority t).falseNegatives : ℚ)) /
        ((updateReputation rep isValid majority t).totalVerifications : ℚ) := by
    rw [RepInv] at hu
    field_simp
    push_cast [hu]
    ring
  refine ⟨hu, updateReputation_counterLe rep isValid majority t, ?_, ?_, ?_, ?_⟩
  · rw [hacc]
    ring
  · rw [updateReputation_score_def rep isValid majority t, hacc]
    ring_nf
  · intro k r h
    exact foldl_updateReputationStep_repInv vr.consensus now vr.verifications
      m hm k r h
  · intro k r h
    exact foldl_updateReputationStep_counterLe vr.consensus now
      vr.verifications m k r h

/-- **C10** (witness): the invariants evaluated at a concrete record with
`total = 5 = 2 + 3 + 0` and an empty reputation map. -/
theorem c10_reputation_counter_invariants_witness :
    RepInv (updateReputation c8Rep false true 7) ∧
    counterLe c8Rep (updateReputation c8Rep false true 7) := by
  have h := c10_reputation_counter_invariants (fun _ => none) c3r1 9 7 c8Rep
    false true (fun k r hk => by simp at hk) (by simp [RepInv, c8Rep])
  exact ⟨h.1, h.2.1⟩

/-! ## Malicious-peer detection lemmas (C8) -/

theorem mem_detectMaliciousStep (acc : List String) (rep : ReputationScore)
    (p : String) :
    p ∈ detectMaliciousStep acc rep ↔
      p ∈ acc ∨ (rep.peerId = p ∧ maliciousCondition rep) := by
  simp only [detectMaliciousStep, maliciousCondition]
  by_cases h1 : rep.score < 0.2 ∧ rep.totalVerifications > 5 <;>
    by_cases h2 : ((rep.falsePositives : ℚ) + (rep.falseNegatives : ℚ)) /
        (rep.totalVerifications : ℚ) > 0.5 ∧ rep.totalVerifications > 10 <;>
      simp [h1, h2, List.mem_append, eq_comm]

theorem mem_detectMalicious_foldl :
    ∀ (l : List ReputationScore) (acc : List String) (p : String),
      p ∈ l.foldl detectMaliciousStep acc ↔
        p ∈ acc ∨ ∃ rep, rep ∈ l ∧ rep.peerId = p ∧ maliciousCondition rep := by
  intro l
  induction l with
  | nil => intro acc p; simp
  | cons w ws ih =>
    intro acc p
    rw [List.foldl_cons, ih, mem_detectMaliciousStep]
    constructor
    · rintro ((h | ⟨hid, hc⟩) | ⟨rep, hrep, hid, hc⟩)
      · exact Or.inl h
      · exact Or.inr ⟨w, List.mem_cons_self w ws, hid, hc⟩
      · exact Or.inr ⟨rep, List.mem_cons_of_mem w hrep, hid, hc⟩
    · rintro (h | ⟨rep, hrep, hid, hc⟩)
      · exact Or.inl (Or.inl h)
      · rcases List.mem_cons.mp hrep with heq | hmem
        · subst heq; exact Or.inl (Or.inr ⟨hid, hc⟩)
        · exact Or.inr ⟨rep, hmem, hid, hc⟩

/-- **C8** (amended). A peer is flagged malicious exactly when some
reputation record under its id has score below 0.2 with strictly more than
5 total verifications, or error rate above 0.5 with strictly more than 10
total verifications; in particular the spec's scenario (6 verifications,
reputation 0.15) is flagged. -/
theorem c8_amended_malicious_iff :
    (∀ (reputationScores : List ReputationScore) (p : String),
      p ∈ detectMaliciousPeers reputationScores ↔
        ∃ rep, rep ∈ reputationScores ∧ rep.peerId = p ∧
          maliciousCondition rep) ∧
    "x" ∈ detectMaliciousPeers [c8RepSix] := by
  constructor
  · intro reputationScores p
    unfold detectMaliciousPeers
    rw [List.mem_dedup, mem_detectMalicious_foldl]
    simp
  · unfold detectMaliciousPeers
    rw [List.mem_dedup]
    norm_num [detectMaliciousStep, c8RepSix]

/-- **C8** (counterexample). A peer with exactly 5 total verifications and
score 0.1 (< 0.2) satisfies the claim's flag condition "score below 0.2
with at least 5 verifications" but is **not** flagged: the source requires
strictly more than 5 (and its error-rate branch strictly more than 10). -/
theorem c8_counterexample_five_verifications_not_flagged :
    c8Rep.score < 0.2 ∧ c8Rep.totalVerifications ≥ 5 ∧
    "x" ∉ detectMaliciousPeers [c8Rep] := by
  refine ⟨by norm_num [c8Rep], by norm_num [c8Rep], ?_⟩
  unfold detectMaliciousPeers
  rw [List.mem_dedup]
  norm_num [detectMaliciousStep, c8Rep]

/-! ## Reassignment lemmas (C9) -/

theorem reassignIter_length (task : TaskRequest) (a : TaskAssignment)
    (now : ℕ) :
    ∀ (k : ℕ) (a2 : TaskAssignment), reassignIter task a now k = some a2 →
      a2.backupPeers.length + k = a.backupPeers.length := by
  intro k
  induction k with
  | zero =>
    intro a2 h
    unfold reassignIter at h
    cases h
    omega
  | succ n ih =>
    intro a2 h
    unfold reassignIter at h
    cases hn : reassignIter task a now n with
    | none => rw [hn] at h; cases h
    | some a1 =>
      rw [hn] at h
      have hlen := ih a1 hn
      cases hb : a1.backupPeers with
      | nil =>
        simp only [reportTaskFailure, hb] at h
        cases h
      | cons b rest =>
        simp only [reportTaskFailure, hb, Option.some.injEq] at h
        subst h
        have hb2 : a1.backupPeers.length = rest.length + 1 := by
          rw [hb]; rfl
        simp only [List.length_cons]
        omega

/-- **C9**. An assignment created at submission carries at most 3 backup
peers (`candidates.slice(1, 4)`); each failure report with a non-empty
backup list promotes its head to primary and strictly shortens the list;
with an empty backup list the report terminally fails the task and
notifies the recorded submitter; hence at most 3 reassignments are ever
possible from one submission. -/
theorem c9_at_most_three_reassignments (task : TaskRequest)
    (primaryPeer : PeerInfo) (laterCandidates : List PeerInfo) (now t : ℕ) :
    (assignTask task primaryPeer laterCandidates now).backupPeers.length ≤ 3 ∧
    (∀ (a : TaskAssignment) (head : String) (rest : List String),
      a.backupPeers = head :: rest →
      reportTaskFailure a task t = FailureOutcome.reassigned
        { a with assignedTo := head, assignedAt := t, backupPeers := rest }) ∧
    (∀ a : TaskAssignment, a.backupPeers = [] →
      reportTaskFailure a task t = FailureOutcome.failed task.submittedBy) ∧
    (∀ (k : ℕ) (a2 : TaskAssignment),
      reassignIter task (assignTask task primaryPeer laterCandidates now) t k
        = some a2 →
      k ≤ 3 ∧ a2.backupPeers.length + k =
        (assignTask task primaryPeer laterCandidates now).backupPeers.length) := by
  have hlen3 :
      (assignTask task primaryPeer laterCandidates now).backupPeers.length ≤ 3 := by
    simp only [assignTask, List.length_map]
    have := List.length_take_le 3 laterCandidates
    omega
  refine ⟨hlen3, ?_, ?_, ?_⟩
  · intro a head rest hb
    unfold reportTaskFailure
    rw [hb]
  · intro a hb
    unfold reportTaskFailure
    rw [hb]
  · intro k a2 h
    have := reassignIter_length task
      (assignTask task primaryPeer laterCandidates now) t k a2 h
    omega

/-! ## Candidate filtering and submission (C6, C7) -/

theorem mem_findTaskCandidates (task : TaskRequest)
    (candidateLookups : List (Option PeerInfo)) (peer : PeerInfo)
    (h : peer ∈ findTaskCandidates task candidateLookups) :
    canPeerHandleTask peer task.requirements = true := by
  simp only [findTaskCandidates] at h
  have h1 := List.mem_of_mem_take h
  have h2 := (List.perm_insertionSort
    (fun a b => calculatePeerScore b task ≤ calculatePeerScore a task)
    _).mem_iff.mp h1
  exact (List.mem_filter.mp h2).2

/-- **C6**. Every assignee of a submitted task — the primary and every
backup peer — passes `canPeerHandleTask`: enough cores, enough ram, a gpu
whenever required, thermal state not critical, and reputation at least
0.5; in particular no assignee's capability snapshot violates the task's
requirements. -/
theorem c6_assignees_pass_candidate_filter (task : TaskRequest)
    (candidateLookups : List (Option PeerInfo)) (primaryPeer : PeerInfo)
    (laterCandidates : List PeerInfo) (now : ℕ)
    (hcands : findTaskCandidates task candidateLookups =
      primaryPeer :: laterCandidates) :
    canPeerHandleTask primaryPeer task.requirements = true ∧
    (∀ b ∈ (assignTask task primaryPeer laterCandidates now).backupPeers,
      ∃ peer, peer ∈ laterCandidates ∧ peer.id = b ∧
        canPeerHandleTask peer task.requirements = true) ∧
    primaryPeer.capabilities.cpuCores ≥ task.requirements.cpuCores ∧
    primaryPeer.capabilities.ramGB ≥ task.requirements.memoryGB ∧
    (task.requirements.gpuRequired = true →
      primaryPeer.capabilities.gpuAcceleration = true) ∧
    primaryPeer.capabilities.thermalState ≠ ThermalState.critical ∧
    primaryPeer.reputation ≥ 0.5 := by
  have hp : canPeerHandleTask primaryPeer task.requirements = true :=
    mem_findTaskCandidates task candidateLookups primaryPeer
      (by rw [hcands]; exact List.mem_cons_self _ _)
  have hparts := hp
  simp only [canPeerHandleTask, Bool.and_eq_true, Bool.or_eq_true,
    decide_eq_true_eq, Bool.not_eq_true'] at hparts
  refine ⟨hp, ?_, hparts.1.1.1.1, hparts.1.1.1.2, ?_, hparts.1.2, hparts.2⟩
  · intro b hb
    simp only [assignTask] at hb
    obtain ⟨peer, hpeer, rfl⟩ := List.mem_map.mp hb
    have hmem : peer ∈ laterCandidates := List.mem_of_mem_take hpeer
    refine ⟨peer, hmem, rfl, ?_⟩
    exact mem_findTaskCandidates task candidateLookups peer
      (by rw [hcands]; exact List.mem_cons_of_mem _ hmem)
  · intro hgpu
    rcases hparts.1.1.2 with hfalse | htrue
    · rw [hgpu] at hfalse; cases hfalse
    · exact htrue

/-- **C6** (witness): hypotheses discharged with one capable peer, which
becomes the primary assignee. -/
theorem c6_assignees_pass_candidate_filter_witness :
    canPeerHandleTask samplePeer sampleTask.requirements = true ∧
    samplePeer.reputation ≥ 0.5 := by
  have h := c6_assignees_pass_candidate_filter sampleTask [some samplePeer]
    samplePeer [] 5
    (by norm_num [findTaskCandidates, canPeerHandleTask, samplePeer,
      sampleCaps, sampleTask, sampleReq, sampleInput, mkTaskRequest,
      List.insertionSort, List.orderedInsert, List.filterMap_cons,
      List.filter_cons, Bool.and_eq_true, decide_eq_true_eq])
  exact ⟨h.1, h.2.2.2.2.2.2⟩

/-- **C7**. When the filtered candidate set is empty, `submitTask` fails
with the "no suitable peers" error (the spec's `NoSuitableCandidates`) and
records nothing: for a fresh task id the pending, active and assignment
tables all hold no entry after the failed call. -/
theorem c7_submit_without_candidates_records_nothing (localNodeId : String)
    (st : DispatchState) (taskId : String) (input : TaskInput)
    (candidateLookups : List (Option PeerInfo)) (now : ℕ)
    (hempty : findTaskCandidates (mkTaskRequest input taskId now localNodeId)
      candidateLookups = [])
    (hactive : st.activeTasks taskId = none)
    (hassign : st.taskAssignments taskId = none) :
    (submitTask localNodeId st taskId input candidateLookups now).2 =
      Except.error "No suitable peers found for task execution" ∧
    (submitTask localNodeId st taskId input candidateLookups
      now).1.pendingTasks taskId = none ∧
    (submitTask localNodeId st taskId input candidateLookups
      now).1.activeTasks taskId = none ∧
    (submitTask localNodeId st taskId input candidateLookups
      now).1.taskAssignments taskId = none := by
  simp [submitTask, hempty, mapUpdate, hactive, hassign]

/-- **C7** (witness): a submission over an empty peer set fails and leaves
the empty dispatch state without entries for the generated id. -/
theorem c7_submit_without_candidates_witness :
    (submitTask "local" emptyDispatchState "t1" sampleInput [] 5).2 =
      Except.error "No suitable peers found for task execution" ∧
    (submitTask "local" emptyDispatchState "t1" sampleInput []
      5).1.pendingTasks "t1" = none ∧
    (submitTask "local" emptyDispatchState "t1" sampleInput []
      5).1.activeTasks "t1" = none ∧
    (submitTask "local" emptyDispatchState "t1" sampleInput []
      5).1.taskAssignments "t1" = none :=
  c7_submit_without_candidates_records_nothing "local" emptyDispatchState
    "t1" sampleInput [] 5 rfl rfl rfl

/-! ## Routing-table lemmas (C5) -/

theorem mem_insertIntoBucket (bucket : List DHTNode) (d : DHTNode)
    (pid : List ℕ) (reach : Bool) (node : DHTNode)
    (h : node ∈ insertIntoBucket bucket d pid reach) :
    node ∈ bucket ∨ node = d := by
  unfold insertIntoBucket at h
  split at h
  next existingIndex heq =>
    exact List.mem_or_eq_of_mem_set h
  next heq =>
    split at h
    next hlen =>
      rcases List.mem_append.mp h with h1 | h1
      · exact Or.inl h1
      · exact Or.inr (List.mem_singleton.mp h1)
    next hlen =>
      split at h
      next hb => exact Or.inl h
      next first rest hb =>
        split at h
        next hreach => exact Or.inl h
        next hreach => exact List.mem_or_eq_of_mem_set h

theorem tableWF_addNode (localNodeId : List ℕ) (buckets : ℕ → List DHTNode)
    (peer : DHTPeer) (now : ℕ) (lruReachable : Bool)
    (h : TableWF localNodeId buckets) :
    TableWF localNodeId
      (addNodeToRoutingTable localNodeId buckets peer now lruReachable) := by
  intro i node hmem
  simp only [addNodeToRoutingTable] at hmem
  by_cases hij :
      i = Nat.log2 (calculateXORDistance localNodeId peer.id + 1)
  · rw [if_pos hij] at hmem
    rcases mem_insertIntoBucket _ _ _ _ _ hmem with h1 | h1
    · obtain ⟨ha, hb⟩ := h _ node h1
      exact ⟨hij.trans ha, hb⟩
    · subst h1
      exact ⟨hij, rfl⟩
  · rw [if_neg hij] at hmem
    exact h i node hmem

theorem tableWF_removeNode (localNodeId : List ℕ)
    (buckets : ℕ → List DHTNode) (nodeId : List ℕ)
    (h : TableWF localNodeId buckets) :
    TableWF localNodeId (removeNodeFromRoutingTable buckets nodeId) := by
  intro i node hmem
  unfold removeNodeFromRoutingTable at hmem
  rcases hfind : (List.range 160).find?
      (fun j => (buckets j).any (fun n => decide (n.id = nodeId))) with _ | j
  · rw [hfind] at hmem
    exact h i node hmem
  · rw [hfind] at hmem
    have hmem2 : node ∈
        (if i = j then (buckets j).eraseP (fun n => decide (n.id = nodeId))
         else buckets i) := hmem
    by_cases hij : i = j
    · rw [if_pos hij] at hmem2
      obtain ⟨ha, hb⟩ := h j node ((List.eraseP_sublist _).subset hmem2)
      exact ⟨hij.trans ha, hb⟩
    · rw [if_neg hij] at hmem2
      exact h i node hmem2

theorem tableWF_buildRoutingTable (localNodeId : List ℕ)
    (ops : List RoutingOp) :
    TableWF localNodeId (buildRoutingTable localNodeId ops) := by
  unfold buildRoutingTable
  suffices h : ∀ start : ℕ → List DHTNode, TableWF localNodeId start →
      TableWF localNodeId (ops.foldl (applyRoutingOp localNodeId) start) by
    refine h _ ?_
    intro i node hmem
    simp at hmem
  induction ops with
  | nil => intro start hs; exact hs
  | cons op ops ih =>
    intro start hs
    rw [List.foldl_cons]
    refine ih _ ?_
    cases op with
    | addNode peer now reach => exact tableWF_addNode _ _ _ _ _ hs
    | removeNode nodeId => exact tableWF_removeNode _ _ _ hs

/-- **C5** (amended). In every routing table reachable by the source's
add/remove operations, each node sits in the bucket
`⌊log2(hamming(local, id) + 1)⌋` — where `calculateXORDistance` is the
*Hamming* distance (popcount of the byte-wise XOR), not the XOR integer
value — its stored distance equals that Hamming distance, and a node id
determines its bucket uniquely (a node appears in at most one bucket). -/
theorem c5_amended_hamming_bucket_invariant (localNodeId : List ℕ)
    (ops : List RoutingOp) (i : ℕ) (node : DHTNode)
    (hmem : node ∈ buildRoutingTable localNodeId ops i) :
    i = bucketIndexOf localNodeId node.id ∧
    node.distance = calculateXORDistance localNodeId node.id ∧
    ∀ j node2, node2 ∈ buildRoutingTable localNodeId ops j →
      node2.id = node.id → j = i := by
  have hwf := tableWF_buildRoutingTable localNodeId ops
  obtain ⟨h1, h2⟩ := hwf i node hmem
  refine ⟨h1, h2, ?_⟩
  intro j node2 hmem2 hid
  obtain ⟨h3, _⟩ := hwf j node2 hmem2
  rw [h3, hid, ← h1]

theorem popcount_zero : popcount 0 = 0 := by
  unfold popcount
  norm_num

theorem popcount_four : popcount 4 = 1 := by
  unfold popcount
  norm_num
  unfold popcount
  norm_num
  unfold popcount
  norm_num
  exact popcount_zero

theorem nat_log2_two : Nat.log2 2 = 1 := by
  simp [Nat.log2]

theorem nat_log2_four : Nat.log2 4 = 2 := by
  simp [Nat.log2]

set_option maxRecDepth 8192 in
theorem calculateXORDistance_c5 :
    calculateXORDistance c5LocalId c5NodeId = 1 := by
  norm_num [calculateXORDistance, c5LocalId, c5NodeId, popcount_zero,
    popcount_four, Nat.zero_xor, Nat.xor_zero]

set_option maxRecDepth 8192 in
theorem specXorDistance_c5 : specXorDistance c5LocalId c5NodeId = 4 := by
  norm_num [specXorDistance, c5LocalId, c5NodeId, Nat.zero_xor,
    Nat.xor_zero]

theorem bucketIndexOf_c5 : bucketIndexOf c5LocalId c5NodeId = 1 := by
  rw [bucketIndexOf, calculateXORDistance_c5]
  exact nat_log2_two

theorem c5Table_one : c5Table 1 = [c5Node] := by
  rw [c5Table]
  simp only [buildRoutingTable, List.foldl_cons, List.foldl_nil,
    applyRoutingOp, addNodeToRoutingTable, c5Peer]
  rw [calculateXORDistance_c5]
  norm_num [insertIntoBucket, kBucketSize, nat_log2_two, c5Node]

theorem c5Table_two : c5Table 2 = [] := by
  rw [c5Table]
  simp only [buildRoutingTable, List.foldl_cons, List.foldl_nil,
    applyRoutingOp, addNodeToRoutingTable, c5Peer]
  rw [calculateXORDistance_c5]
  norm_num [nat_log2_two]

/-- **C5** (counterexample). Local id with value 4 (bit 2 set), node id 0:
the XOR integer distance is 4 with `⌊log2 4⌋ = 2`, the claim's bucket
index, but the source stores the node in bucket
`⌊log2(hamming + 1)⌋ = ⌊log2 2⌋ = 1` and bucket 2 stays empty. -/
theorem c5_counterexample_spec_index_mismatch :
    c5Node ∈ c5Table 1 ∧
    specBucketIndex c5LocalId c5Node.id = 2 ∧
    bucketIndexOf c5LocalId c5Node.id = 1 ∧
    c5Table 2 = [] := by
  refine ⟨?_, ?_, ?_, c5Table_two⟩
  · rw [c5Table_one]
    exact List.mem_singleton.mpr rfl
  · show Nat.log2 (specXorDistance c5LocalId c5NodeId) = 2
    rw [specXorDistance_c5]
    exact nat_log2_four
  · show bucketIndexOf c5LocalId c5NodeId = 1
    exact bucketIndexOf_c5

/-- **C5** (witness): the amended invariant evaluated on the one-node
table `c5Table`. -/
theorem c5_amended_hamming_bucket_invariant_witness :
    1 = bucketIndexOf c5LocalId c5Node.id ∧
    c5Node.distance = calculateXORDistance c5LocalId c5Node.id := by
  have h := c5_amended_hamming_bucket_invariant c5LocalId
    [RoutingOp.addNode c5Peer 7 true] 1 c5Node
    (by show c5Node ∈ c5Table 1
        rw [c5Table_one]
        exact List.mem_singleton.mpr rfl)
  exact ⟨h.1, h.2.1⟩
